import Mathlib

/-!
Shallow embedding of `src/monitor.py` (class `SerialMonitor`), an interactive
hex serial monitor.

Modelling conventions:
* A keyboard event is the byte string returned by one `getch()` call,
  modelled as a `List Nat` of byte values (one entry per byte).
* `self.input_buffer` is a Python `str` holding only ASCII hex digits;
  it is modelled as the `List Nat` of its character codes.
* Serial traffic is a `List Nat` of byte values.
* `self` attribute mutation is explicit state passing on `MonState`;
  a Python exception that propagates is recorded in an `Option PyExc`
  field next to the state reached at the moment of the raise (attribute
  mutations performed before the raise persist, as in Python).
* The serial driver is external: whether `serial.write` raises is a
  Boolean parameter `writeFails`; the bytes waiting on the device at a
  tick are an input `List Nat`.
-/

namespace SerialMon

/-- Python exceptions the modelled code can raise. -/
inductive PyExc
  | valueError
  | ioError
  | keyboardInterrupt
  | typeError
  deriving DecidableEq

/-- The `SerialMonitor` instance attributes used by the session loop
(`monitor.py` lines 24-30): connection parameters, the pending hex input
buffer, and the cumulative RX/TX byte counters. -/
structure MonState where
  port : String
  baudrate : Int
  parity : String
  input_buffer : List Nat
  total_bytes_rx : Nat
  total_bytes_tx : Nat
  deriving DecidableEq

/-- `bytes.upper()` on a single byte: ASCII `a`-`z` maps to `A`-`Z`,
everything else is unchanged. -/
def byteUpper (b : Nat) : Nat :=
  if 97 ≤ b ∧ b ≤ 122 then b - 32 else b

/-- Membership in `b'0123456789ABCDEF'` (`monitor.py` line 155): the byte
is one of ASCII 48-57 (`0`-`9`) or 65-70 (`A`-`F`). -/
def isHexDigitByte (b : Nat) : Bool :=
  decide ((48 ≤ b ∧ b ≤ 57) ∨ (65 ≤ b ∧ b ≤ 70))

/-- Value of one hex digit as `bytes.fromhex` accepts it (both cases). -/
def hexVal? (b : Nat) : Option Nat :=
  if 48 ≤ b ∧ b ≤ 57 then some (b - 48)
  else if 65 ≤ b ∧ b ≤ 70 then some (b - 55)
  else if 97 ≤ b ∧ b ≤ 102 then some (b - 87)
  else none

/-- `bytes.fromhex` on a string with no whitespace (the pending buffer
never contains whitespace): consecutive digit pairs become bytes; an odd
tail or a non-hex character raises `ValueError`, modelled as `none`. -/
def fromhex? : List Nat → Option (List Nat)
  | [] => some []
  | [_] => none
  | a :: b :: rest => do
      let hi ← hexVal? a
      let lo ← hexVal? b
      let r ← fromhex? rest
      pure ((16 * hi + lo) :: r)

/-- Value of one hex digit as the spec words it ("Hex pairing: two hex
digits representing one byte"; "Hex-digit matching is case-insensitive").
Stated independently of `fromhex?` for the refinement comparison. -/
def specHexDigitVal? (c : Nat) : Option Nat :=
  if 48 ≤ c ∧ c ≤ 57 then some (c - 48)
  else if 65 ≤ c ∧ c ≤ 70 then some (c - 55)
  else if 97 ≤ c ∧ c ≤ 102 then some (c - 87)
  else none

/-- Pairwise hex decoding as the spec describes it: consecutive keystroke
pairs decode, case-insensitively, into one byte each. -/
def pairwiseHexDecode : List Nat → Option (List Nat)
  | [] => some []
  | [_] => none
  | a :: b :: rest => do
      let hi ← specHexDigitVal? a
      let lo ← specHexDigitVal? b
      let r ← pairwiseHexDecode rest
      pure ((16 * hi + lo) :: r)

/-- Result of handling one keyboard event: the state reached, the bytes
written to the serial connection, and the exception that propagated out
(if any). -/
structure StepOut where
  st : MonState
  written : List Nat
  exc : Option PyExc
  deriving DecidableEq

/-- `monitor.py` lines 154-157: if every byte of the (uppercased) event is
a hex digit, append the event to `input_buffer`. -/
def hexAppendStep (k : List Nat) (st : MonState) : MonState :=
  if k.all isHexDigitByte then
    { st with input_buffer := st.input_buffer ++ k }
  else st

/-- `monitor.py` lines 159-169: on `b'\r'`, an empty buffer prints the
status line; an even-length buffer is sent with `serial.write` (which may
raise, parameter `writeFails`) and then cleared; an odd-length buffer is
left alone.  `bytes.fromhex` raising is `valueError`. -/
def enterStep (writeFails : Bool) (k : List Nat) (st : MonState) : StepOut :=
  if k = [13] then
    if st.input_buffer.length = 0 then ⟨st, [], none⟩
    else if st.input_buffer.length % 2 = 0 then
      match fromhex? st.input_buffer with
      | none => ⟨st, [], some PyExc.valueError⟩
      | some bs =>
          if writeFails then ⟨st, [], some PyExc.ioError⟩
          else ⟨{ st with input_buffer := [] }, bs, none⟩
    else ⟨st, [], none⟩
  else ⟨st, [], none⟩

/-- `monitor.py` lines 171-174: on `b'\x7f'` or `b'\x08'`, drop the last
buffer character (`input_buffer[:-1]`, which on an empty string stays
empty). -/
def backspaceStep (k : List Nat) (st : MonState) : MonState :=
  if k = [127] ∨ k = [8] then
    { st with input_buffer := st.input_buffer.dropLast }
  else st

/-- `monitor.py` lines 176-178: on `b'\x03'`, raise `KeyboardInterrupt`. -/
def ctrlCStep (k : List Nat) (out : StepOut) : StepOut :=
  if k = [3] then ⟨out.st, out.written, some PyExc.keyboardInterrupt⟩ else out

/-- `process_input` (`monitor.py` lines 150-178) for one dequeued event:
the event is uppercased, then the hex-append, Enter, backspace and Ctrl-C
checks run in that order; an exception raised in the Enter branch skips
the remaining checks. -/
def process_input_key (writeFails : Bool) (st : MonState) (key : List Nat) : StepOut :=
  let k := key.map byteUpper
  let st1 := hexAppendStep k st
  let e := enterStep writeFails k st1
  match e.exc with
  | some exc => ⟨e.st, e.written, some exc⟩
  | none => ctrlCStep k ⟨backspaceStep k e.st, e.written, none⟩

/-- Iterated `process_input`, one queued keyboard event per call, stopping
when an exception propagates; collects all bytes written. -/
def process_keys (writeFails : Bool) : MonState → List (List Nat) → StepOut
  | st, [] => ⟨st, [], none⟩
  | st, key :: rest =>
      let r := process_input_key writeFails st key
      match r.exc with
      | some e => ⟨r.st, r.written, some e⟩
      | none =>
          let r2 := process_keys writeFails r.st rest
          ⟨r2.st, r.written ++ r2.written, r2.exc⟩

/-- Lowercase hex digit character, as produced by `bytes.hex`. -/
def hexDigitCharLower (n : Nat) : Char :=
  if n < 10 then Char.ofNat (48 + n) else Char.ofNat (87 + n)

/-- One byte as two lowercase hex characters. -/
def byteHexPair (b : Nat) : String :=
  String.mk [hexDigitCharLower (b / 16 % 16), hexDigitCharLower (b % 16)]

/-- `data.hex(' ')`: lowercase hex pairs separated by single spaces. -/
def bytesHexSpace (data : List Nat) : String :=
  String.intercalate " " (data.map byteHexPair)

/-- Keyword arguments accepted by the Python built-in `print`
(`sep`, `end`, `file`, `flush`); any other keyword raises `TypeError`.
`monitor.py` line 188 calls `print(data.hex(' '), end=' ', style='green')`,
passing the keywords `end` and `style`. -/
def pyPrintAllowedKw (kw : String) : Bool :=
  kw == "sep" || kw == "end" || kw == "file" || kw == "flush"

/-- Result of one `process_output` call: state reached, count of bytes
read from the serial device, the rendered hex text (if the print
succeeded), and the exception that propagated (if any). -/
structure OutTick where
  st : MonState
  readCount : Nat
  rendered : Option String
  exc : Option PyExc
  deriving DecidableEq

/-- `process_output` (`monitor.py` lines 181-190): query `inWaiting()`;
if nonzero, read exactly that many bytes in one `read` call, add the count
to `total_bytes_rx`, then print the hex dump.  The `print` call passes the
keyword `style`, which the built-in `print` rejects with `TypeError`; the
counter increment precedes the raise, so it persists. -/
def process_output (st : MonState) (avail : List Nat) : OutTick :=
  let bytes_to_read := avail.length
  if bytes_to_read = 0 then ⟨st, 0, none, none⟩
  else
    let data := avail
    let st2 := { st with total_bytes_rx := st.total_bytes_rx + bytes_to_read }
    if ["end", "style"].all pyPrintAllowedKw then
      ⟨st2, bytes_to_read, some (bytesHexSpace data), none⟩
    else
      ⟨st2, bytes_to_read, none, some PyExc.typeError⟩

/-- Inputs to one iteration of the `run` loop (`monitor.py` lines 206-208):
the head of the keyboard queue if it is nonempty, and the bytes currently
waiting on the serial device. -/
structure TickIn where
  key : Option (List Nat)
  avail : List Nat

/-- Result of one or more loop iterations. -/
structure TickOut where
  st : MonState
  written : List Nat
  readCount : Nat
  exc : Option PyExc
  deriving DecidableEq

/-- One iteration of the `run` loop: `process_input()` then
`process_output()`; an exception from the first skips the second. -/
def session_tick (writeFails : Bool) (st : MonState) (t : TickIn) : TickOut :=
  match t.key with
  | none =>
      let o := process_output st t.avail
      ⟨o.st, [], o.readCount, o.exc⟩
  | some k =>
      let r := process_input_key writeFails st k
      match r.exc with
      | some e => ⟨r.st, r.written, 0, some e⟩
      | none =>
          let o := process_output r.st t.avail
          ⟨o.st, r.written, o.readCount, o.exc⟩

/-- Iterated `session_tick`, stopping when an exception propagates. -/
def run_ticks (writeFails : Bool) : MonState → List TickIn → TickOut
  | st, [] => ⟨st, [], 0, none⟩
  | st, t :: ts =>
      let r := session_tick writeFails st t
      match r.exc with
      | some _ => r
      | none =>
          let r2 := run_ticks writeFails r.st ts
          ⟨r2.st, r.written ++ r2.written, r.readCount + r2.readCount, r2.exc⟩

/-- `get_info` (`monitor.py` lines 139-140). -/
def get_info (st : MonState) : String :=
  "Port: " ++ st.port ++ " | Baudrate: " ++ toString st.baudrate ++
    " | Parity: " ++ st.parity ++ " | RX: " ++ toString st.total_bytes_rx ++
    " | TX: " ++ toString st.total_bytes_tx

/-- `DEFAULT_BAUDRATE` (`monitor.py` line 20). -/
def DEFAULT_BAUDRATE : Int := 115200

/-- Characters stripped by Python `int(str)` before parsing. -/
def pyWhitespace (c : Char) : Bool :=
  c == ' ' || c == '\t' || c == '\n' || c == '\r' ||
    c == Char.ofNat 11 || c == Char.ofNat 12

/-- Strip leading and trailing whitespace. -/
def pyStrip (l : List Char) : List Char :=
  ((l.dropWhile pyWhitespace).reverse.dropWhile pyWhitespace).reverse

/-- Nonempty all-digit run parsed as a decimal number. -/
def pyDigits? (l : List Char) : Option Nat :=
  if !l.isEmpty && l.all Char.isDigit then
    some (l.foldl (fun a c => 10 * a + (c.toNat - 48)) 0)
  else none

/-- The Python built-in `int(str)`: surrounding whitespace is stripped,
an optional sign precedes a nonempty decimal digit run; anything else
raises `ValueError`, modelled as `none`.  (Underscore digit grouping is
not modelled; no claim depends on it.) -/
def pyIntOfString? (s : String) : Option Int :=
  match pyStrip s.toList with
  | '+' :: rest => (pyDigits? rest).map (fun n => (n : Int))
  | '-' :: rest => (pyDigits? rest).map (fun n => -(n : Int))
  | l => (pyDigits? l).map (fun n => (n : Int))

/-- `select_baudrate` (`monitor.py` lines 107-113) under the
`handle_input_error` retry decorator (lines 39-49), driven by the
successive strings the user types: an empty line takes the default
115200, a line `int` accepts returns that integer, and a line that makes
`int` raise `ValueError` re-prompts on the next line.  `none` means the
supplied input lines ran out (the real loop would keep prompting). -/
def select_baudrate : List String → Option Int
  | [] => none
  | line :: rest =>
      if line = "" then some DEFAULT_BAUDRATE
      else
        match pyIntOfString? line with
        | some n => some n
        | none => select_baudrate rest

/-- A state as it is right after `open_port`: fresh counters, empty
buffer, the spec scenario parameters. -/
def initMonState : MonState :=
  { port := "COM3", baudrate := 115200, parity := "N",
    input_buffer := [], total_bytes_rx := 0, total_bytes_tx := 0 }

/-- A state whose pending buffer holds `"41"` (codes of `4` and `1`). -/
def st41 : MonState :=
  { initMonState with input_buffer := [52, 49] }

/-- A state whose pending buffer holds the single digit `"4"`. -/
def st4 : MonState :=
  { initMonState with input_buffer := [52] }

/-- Every buffer character is one of the 16 valid hex digits. -/
def bufferValid (l : List Nat) : Bool := l.all isHexDigitByte

/-! ## Helper lemmas -/

theorem isHexDigitByte_iff (b : Nat) :
    isHexDigitByte b = true ↔ (48 ≤ b ∧ b ≤ 57) ∨ (65 ≤ b ∧ b ≤ 70) := by
  simp [isHexDigitByte]

theorem hexVal?_byteUpper (c : Nat) : hexVal? (byteUpper c) = specHexDigitVal? c := by
  unfold hexVal? specHexDigitVal? byteUpper
  split_ifs <;> first | rfl | omega

theorem fromhex?_map_byteUpper : ∀ l : List Nat,
    fromhex? (l.map byteUpper) = pairwiseHexDecode l
  | [] => rfl
  | [a] => by simp [fromhex?, pairwiseHexDecode]
  | a :: b :: rest => by
      simp only [List.map_cons, fromhex?, pairwiseHexDecode, hexVal?_byteUpper,
        fromhex?_map_byteUpper rest]

theorem hexVal?_isSome (b : Nat) (h : isHexDigitByte b = true) :
    ∃ v, hexVal? b = some v := by
  rw [isHexDigitByte_iff] at h
  unfold hexVal?
  split_ifs <;> first | exact ⟨_, rfl⟩ | (exfalso; omega)

theorem fromhex?_isSome : ∀ l : List Nat,
    (∀ b ∈ l, isHexDigitByte b = true) → l.length % 2 = 0 →
    ∃ bs, fromhex? l = some bs
  | [] => fun _ _ => ⟨[], rfl⟩
  | [a] => by intro _ h; simp at h
  | a :: b :: rest => by
      intro hall hlen
      obtain ⟨va, hva⟩ := hexVal?_isSome a (hall a (by simp))
      obtain ⟨vb, hvb⟩ := hexVal?_isSome b (hall b (by simp))
      have hlen2 : rest.length % 2 = 0 := by
        simp only [List.length_cons] at hlen; omega
      obtain ⟨bs, hbs⟩ := fromhex?_isSome rest (fun x hx => hall x (by simp [hx])) hlen2
      exact ⟨(16 * va + vb) :: bs, by simp [fromhex?, hva, hvb, hbs]⟩

theorem step_hex (wf : Bool) (st : MonState) (c : Nat)
    (h : isHexDigitByte (byteUpper c) = true) :
    process_input_key wf st [c] =
      ⟨{ st with input_buffer := st.input_buffer ++ [byteUpper c] }, [], none⟩ := by
  have h4 := (isHexDigitByte_iff (byteUpper c)).mp h
  have h13 : byteUpper c ≠ 13 := by omega
  have h127 : byteUpper c ≠ 127 := by omega
  have h8 : byteUpper c ≠ 8 := by omega
  have h3 : byteUpper c ≠ 3 := by omega
  simp [process_input_key, hexAppendStep, enterStep, backspaceStep, ctrlCStep,
    h, h13, h127, h8, h3]

theorem step_enter_empty (wf : Bool) (st : MonState) (h : st.input_buffer = []) :
    process_input_key wf st [13] = ⟨st, [], none⟩ := by
  simp [process_input_key, hexAppendStep, enterStep, backspaceStep, ctrlCStep,
    isHexDigitByte, byteUpper, h]

theorem step_enter_send (st : MonState) (bs : List Nat)
    (hne : st.input_buffer.length ≠ 0) (heven : st.input_buffer.length % 2 = 0)
    (hfh : fromhex? st.input_buffer = some bs) :
    process_input_key false st [13] = ⟨{ st with input_buffer := [] }, bs, none⟩ := by
  simp [process_input_key, hexAppendStep, enterStep, backspaceStep, ctrlCStep,
    isHexDigitByte, byteUpper, hne, heven, hfh]

theorem step_enter_write_fails (st : MonState) (bs : List Nat)
    (hne : st.input_buffer.length ≠ 0) (heven : st.input_buffer.length % 2 = 0)
    (hfh : fromhex? st.input_buffer = some bs) :
    process_input_key true st [13] = ⟨st, [], some PyExc.ioError⟩ := by
  simp [process_input_key, hexAppendStep, enterStep, backspaceStep, ctrlCStep,
    isHexDigitByte, byteUpper, hne, heven, hfh]

theorem step_backspace (wf : Bool) (st : MonState) :
    process_input_key wf st [127] =
      ⟨{ st with input_buffer := st.input_buffer.dropLast }, [], none⟩ := by
  simp [process_input_key, hexAppendStep, enterStep, backspaceStep, ctrlCStep,
    isHexDigitByte, byteUpper]

theorem step_backspace8 (wf : Bool) (st : MonState) :
    process_input_key wf st [8] =
      ⟨{ st with input_buffer := st.input_buffer.dropLast }, [], none⟩ := by
  simp [process_input_key, hexAppendStep, enterStep, backspaceStep, ctrlCStep,
    isHexDigitByte, byteUpper]

theorem hexAppendStep_counters (k : List Nat) (st : MonState) :
    (hexAppendStep k st).total_bytes_rx = st.total_bytes_rx ∧
    (hexAppendStep k st).total_bytes_tx = st.total_bytes_tx := by
  unfold hexAppendStep; split <;> simp

theorem enterStep_counters (wf : Bool) (k : List Nat) (st : MonState) :
    (enterStep wf k st).st.total_bytes_rx = st.total_bytes_rx ∧
    (enterStep wf k st).st.total_bytes_tx = st.total_bytes_tx := by
  unfold enterStep
  repeat' split
  all_goals simp

theorem backspaceStep_counters (k : List Nat) (st : MonState) :
    (backspaceStep k st).total_bytes_rx = st.total_bytes_rx ∧
    (backspaceStep k st).total_bytes_tx = st.total_bytes_tx := by
  unfold backspaceStep; split <;> simp

theorem ctrlCStep_st (k : List Nat) (out : StepOut) :
    (ctrlCStep k out).st = out.st := by
  unfold ctrlCStep; split <;> rfl

theorem step_counters (wf : Bool) (st : MonState) (key : List Nat) :
    (process_input_key wf st key).st.total_bytes_rx = st.total_bytes_rx ∧
    (process_input_key wf st key).st.total_bytes_tx = st.total_bytes_tx := by
  simp only [process_input_key]
  split
  · next exc heq =>
      have h1 := enterStep_counters wf (key.map byteUpper) (hexAppendStep (key.map byteUpper) st)
      have h2 := hexAppendStep_counters (key.map byteUpper) st
      constructor <;> simp <;> omega
  · next heq =>
      rw [ctrlCStep_st]
      have h1 := enterStep_counters wf (key.map byteUpper) (hexAppendStep (key.map byteUpper) st)
      have h2 := hexAppendStep_counters (key.map byteUpper) st
      have h3 := backspaceStep_counters (key.map byteUpper)
        (enterStep wf (key.map byteUpper) (hexAppendStep (key.map byteUpper) st)).st
      constructor <;> (dsimp only; omega)

theorem keys_counters (wf : Bool) : ∀ (keys : List (List Nat)) (st : MonState),
    (process_keys wf st keys).st.total_bytes_rx = st.total_bytes_rx ∧
    (process_keys wf st keys).st.total_bytes_tx = st.total_bytes_tx
  | [], st => ⟨rfl, rfl⟩
  | key :: rest, st => by
      simp only [process_keys]
      have h1 := step_counters wf st key
      split
      · exact h1
      · have h2 := keys_counters wf rest (process_input_key wf st key).st
        constructor <;> simp <;> omega

theorem hexAppendStep_valid (k : List Nat) (st : MonState)
    (h : bufferValid st.input_buffer = true) :
    bufferValid (hexAppendStep k st).input_buffer = true := by
  unfold hexAppendStep
  split
  · next hk => simp_all [bufferValid, List.all_append]
  · exact h

theorem enterStep_buffer (wf : Bool) (k : List Nat) (st : MonState) :
    (enterStep wf k st).st.input_buffer = st.input_buffer ∨
    (enterStep wf k st).st.input_buffer = [] := by
  unfold enterStep
  repeat' split
  all_goals simp

theorem backspaceStep_valid (k : List Nat) (st : MonState)
    (h : bufferValid st.input_buffer = true) :
    bufferValid (backspaceStep k st).input_buffer = true := by
  unfold backspaceStep
  split
  · simp only [bufferValid, List.all_eq_true] at h ⊢
    exact fun x hx => h x ((List.dropLast_sublist st.input_buffer).subset hx)
  · exact h

theorem step_valid (wf : Bool) (st : MonState) (key : List Nat)
    (h : bufferValid st.input_buffer = true) :
    bufferValid (process_input_key wf st key).st.input_buffer = true := by
  have hh : bufferValid (hexAppendStep (key.map byteUpper) st).input_buffer = true :=
    hexAppendStep_valid _ st h
  have he : bufferValid
      (enterStep wf (key.map byteUpper) (hexAppendStep (key.map byteUpper) st)).st.input_buffer
        = true := by
    rcases enterStep_buffer wf (key.map byteUpper) (hexAppendStep (key.map byteUpper) st)
      with hb | hb <;> rw [hb]
    · exact hh
    · rfl
  simp only [process_input_key]
  split
  · exact he
  · rw [ctrlCStep_st]
    exact backspaceStep_valid _ _ he

theorem keys_valid (wf : Bool) : ∀ (keys : List (List Nat)) (st : MonState),
    bufferValid st.input_buffer = true →
    bufferValid (process_keys wf st keys).st.input_buffer = true
  | [], _ => fun h => h
  | key :: rest, st => by
      intro h
      have h1 := step_valid wf st key h
      simp only [process_keys]
      split
      · exact h1
      · exact keys_valid wf rest _ h1

theorem process_keys_append_ok (wf : Bool) : ∀ (ks1 ks2 : List (List Nat))
    (st st1 : MonState) (w1 : List Nat),
    process_keys wf st ks1 = ⟨st1, w1, none⟩ →
    process_keys wf st (ks1 ++ ks2) =
      ⟨(process_keys wf st1 ks2).st, w1 ++ (process_keys wf st1 ks2).written,
        (process_keys wf st1 ks2).exc⟩
  | [], ks2, st, st1, w1 => by
      intro h
      simp only [process_keys, StepOut.mk.injEq] at h
      obtain ⟨rfl, rfl, -⟩ := h
      simp [process_keys]
  | key :: ks1, ks2, st, st1, w1 => by
      intro h
      simp only [process_keys] at h
      simp only [List.cons_append, process_keys]
      cases hr : (process_input_key wf st key).exc with
      | some e => simp only [hr] at h; simp at h
      | none =>
          simp only [hr] at h
          rcases hE : process_keys wf (process_input_key wf st key).st ks1 with ⟨a, b, c⟩
          rw [hE] at h
          simp only [StepOut.mk.injEq] at h
          obtain ⟨rfl, rfl, hc⟩ := h
          cases hc
          simp only [List.append_eq]
          rw [process_keys_append_ok wf ks1 ks2 _ a b hE]
          simp [List.append_assoc]

theorem hex_run (wf : Bool) : ∀ (ks : List Nat) (st : MonState),
    (∀ c ∈ ks, isHexDigitByte (byteUpper c) = true) →
    process_keys wf st (ks.map (fun c => [c])) =
      ⟨{ st with input_buffer := st.input_buffer ++ ks.map byteUpper }, [], none⟩
  | [], st => by
      intro _
      simp [process_keys]
  | c :: ks, st => by
      intro h
      have hc := h c (List.mem_cons_self c ks)
      have hrest : ∀ x ∈ ks, isHexDigitByte (byteUpper x) = true :=
        fun x hx => h x (List.mem_cons_of_mem c hx)
      simp only [List.map_cons, process_keys, step_hex wf st c hc]
      rw [hex_run wf ks _ hrest]
      simp

theorem backspace_drain (wf : Bool) : ∀ (n : Nat) (st : MonState),
    st.input_buffer.length = n →
    (process_keys wf st (List.replicate n [127])).st.input_buffer = []
  | 0, st => fun h => List.eq_nil_of_length_eq_zero h
  | n + 1, st => by
      intro h
      simp only [List.replicate, process_keys, step_backspace]
      exact backspace_drain wf n _ (by rw [List.length_dropLast, h]; omega)

theorem step_key_congr (wf : Bool) (st : MonState) {key key' : List Nat}
    (h : key.map byteUpper = key'.map byteUpper) :
    process_input_key wf st key = process_input_key wf st key' := by
  unfold process_input_key
  rw [h]

theorem keys_congr_upper (wf : Bool) : ∀ (ks ks' : List (List Nat)) (st : MonState),
    ks.map (List.map byteUpper) = ks'.map (List.map byteUpper) →
    process_keys wf st ks = process_keys wf st ks'
  | [], [], _ => fun _ => rfl
  | [], _ :: _, _ => by intro h; simp at h
  | _ :: _, [], _ => by intro h; simp at h
  | k :: ks, k' :: ks', st => by
      intro h
      simp only [List.map_cons, List.cons.injEq] at h
      obtain ⟨h1, h2⟩ := h
      simp only [process_keys, step_key_congr wf st h1]
      cases hr : (process_input_key wf st k').exc with
      | some e => simp [hr]
      | none => simp [hr, keys_congr_upper wf ks ks' _ h2]

theorem print_style_kwarg_rejected : pyPrintAllowedKw "style" = false := by decide

theorem out_rx (st : MonState) (avail : List Nat) :
    (process_output st avail).st.total_bytes_rx =
      st.total_bytes_rx + (process_output st avail).readCount ∧
    (process_output st avail).st.total_bytes_tx = st.total_bytes_tx := by
  unfold process_output
  by_cases h : avail.length = 0 <;> simp [h, print_style_kwarg_rejected]

theorem tick_rx (wf : Bool) (st : MonState) (t : TickIn) :
    (session_tick wf st t).st.total_bytes_rx =
      st.total_bytes_rx + (session_tick wf st t).readCount ∧
    (session_tick wf st t).st.total_bytes_tx = st.total_bytes_tx := by
  rcases t with ⟨key?, avail⟩
  cases key? with
  | none => simpa [session_tick] using out_rx st avail
  | some k =>
      simp only [session_tick]
      have h1 := step_counters wf st k
      have h2 := out_rx (process_input_key wf st k).st avail
      cases hr : (process_input_key wf st k).exc with
      | some e => dsimp only; omega
      | none => dsimp only; omega

theorem run_rx_sum (wf : Bool) : ∀ (ticks : List TickIn) (st : MonState),
    (run_ticks wf st ticks).st.total_bytes_rx =
      st.total_bytes_rx + (run_ticks wf st ticks).readCount ∧
    st.total_bytes_rx ≤ (run_ticks wf st ticks).st.total_bytes_rx ∧
    (run_ticks wf st ticks).st.total_bytes_tx = st.total_bytes_tx
  | [], st => by simp [run_ticks]
  | t :: ts, st => by
      simp only [run_ticks]
      have h1 := tick_rx wf st t
      cases hr : (session_tick wf st t).exc with
      | some e =>
          simp only [hr]
          refine ⟨h1.1, ?_, h1.2⟩
          omega
      | none =>
          have h2 := run_rx_sum wf ts (session_tick wf st t).st
          simp only [hr]
          refine ⟨?_, ?_, ?_⟩ <;> omega

/-! ## Claim theorems -/

/-- C1: for every sequence of valid hex-digit keystrokes of even total length
followed by Enter, the bytes written to the serial connection are exactly the
pairwise hex-decoding of those keystrokes in order, and the pending buffer is
empty immediately after the submit (and no exception is raised). -/
theorem even_submit_sends_decoded (ks : List Nat) (st : MonState) (bs : List Nat)
    (hval : ∀ c ∈ ks, isHexDigitByte (byteUpper c) = true)
    (heven : ks.length % 2 = 0)
    (hempty : st.input_buffer = [])
    (hdec : pairwiseHexDecode ks = some bs) :
    (process_keys false st (ks.map (fun c => [c]) ++ [[13]])).written = bs ∧
    (process_keys false st (ks.map (fun c => [c]) ++ [[13]])).st.input_buffer = [] ∧
    (process_keys false st (ks.map (fun c => [c]) ++ [[13]])).exc = none := by
  have h1 := hex_run false ks st hval
  rw [process_keys_append_ok false (ks.map fun c => [c]) [[13]] st
      { st with input_buffer := st.input_buffer ++ ks.map byteUpper } [] h1]
  by_cases hks : ks = []
  · subst hks
    have hbs : bs = [] := by simpa [pairwiseHexDecode] using hdec.symm
    subst hbs
    simp only [List.map_nil, List.append_nil, hempty]
    have hstep := step_enter_empty false { st with input_buffer := ([] : List Nat) } rfl
    simp [process_keys, hstep]
  · set st1 : MonState := { st with input_buffer := st.input_buffer ++ ks.map byteUpper }
      with hst1
    have hbuf : st1.input_buffer = ks.map byteUpper := by rw [hst1]; simp [hempty]
    have hne : st1.input_buffer.length ≠ 0 := by
      rw [hbuf, List.length_map]
      intro h0
      exact hks (List.eq_nil_of_length_eq_zero h0)
    have heven1 : st1.input_buffer.length % 2 = 0 := by
      rw [hbuf, List.length_map]; exact heven
    have hfh : fromhex? st1.input_buffer = some bs := by
      rw [hbuf, fromhex?_map_byteUpper]; exact hdec
    have hstep := step_enter_send st1 bs hne heven1 hfh
    simp [process_keys, hstep]

/-- Witness for C1: keystrokes 4, 1, Enter on a fresh state transmit the single
byte 0x41 and leave the buffer empty. -/
theorem even_submit_sends_decoded_witness :
    pairwiseHexDecode [52, 49] = some [65] ∧
    (process_keys false initMonState ([52, 49].map (fun c => [c]) ++ [[13]])).written = [65] ∧
    (process_keys false initMonState ([52, 49].map (fun c => [c]) ++ [[13]])).st.input_buffer
      = [] :=
  ⟨by decide,
   (even_submit_sends_decoded [52, 49] initMonState [65]
     (by decide) (by decide) rfl (by decide)).1,
   (even_submit_sends_decoded [52, 49] initMonState [65]
     (by decide) (by decide) rfl (by decide)).2.1⟩

/-- C2 (code bug in `monitor.py`): `total_bytes_tx` is never mutated anywhere —
after any run of the session loop it still equals its initial value — even
though the keystrokes 4, 1, Enter transmit one byte (0x41); the status line
accordingly still reads `TX: 0` after that transmission. -/
theorem tx_counter_never_updated :
    (∀ (wf : Bool) (st : MonState) (ticks : List TickIn),
      (run_ticks wf st ticks).st.total_bytes_tx = st.total_bytes_tx) ∧
    (process_keys false initMonState [[52], [49], [13]]).written = [65] ∧
    (process_keys false initMonState [[52], [49], [13]]).st.total_bytes_tx = 0 ∧
    get_info (process_keys false initMonState [[52], [49], [13]]).st =
      "Port: COM3 | Baudrate: 115200 | Parity: N | RX: 0 | TX: 0" :=
  ⟨fun wf st ticks => (run_rx_sum wf ticks st).2.2, by decide, by decide, by decide⟩

/-- C3: pressing Enter with an odd number of accumulated digits transmits
nothing, raises nothing, and leaves the state (so in particular the buffer)
exactly as it was. -/
theorem odd_enter_noop (wf : Bool) (st : MonState)
    (hodd : st.input_buffer.length % 2 = 1) :
    process_input_key wf st [13] = ⟨st, [], none⟩ := by
  have h0 : st.input_buffer.length ≠ 0 := by omega
  have h2 : ¬(st.input_buffer.length % 2 = 0) := by omega
  simp [process_input_key, hexAppendStep, enterStep, backspaceStep, ctrlCStep,
    isHexDigitByte, byteUpper, h0, h2]

/-- Witness for C3: Enter on the one-digit buffer `"4"` is a no-op. -/
theorem odd_enter_noop_witness :
    st4.input_buffer.length % 2 = 1 ∧ process_input_key false st4 [13] = ⟨st4, [], none⟩ :=
  ⟨by decide, odd_enter_noop false st4 (by decide)⟩

/-- C4 (code bug in `monitor.py`): with bytes 0x0A 0xFF available in one tick,
`process_output` reads both in one call and increments RX by 2, but the
`print(data.hex(' '), end=' ', style='green')` call passes the keyword
`style`, which the built-in `print` rejects, so a `TypeError` propagates and
nothing is rendered; the text the claim expects would have been `"0a ff"`. -/
theorem output_print_style_typeerror :
    (process_output initMonState [10, 255]).readCount = 2 ∧
    (process_output initMonState [10, 255]).st.total_bytes_rx = 2 ∧
    (process_output initMonState [10, 255]).rendered = none ∧
    (process_output initMonState [10, 255]).exc = some PyExc.typeError ∧
    bytesHexSpace [10, 255] = "0a ff" := by decide

/-- C5 counterexample: the input line `"-9600"` is accepted by `int()` and
returned as the baud rate, a non-positive value, contradicting "only positive
integers are accepted" and "never returns a non-positive baud rate". -/
theorem baudrate_accepts_nonpositive :
    select_baudrate ["-9600"] = some (-9600) ∧ ¬(0 < (-9600 : Int)) := by decide

/-- C5 (amended): baud-rate selection accepts any string `int()` can parse
(including zero and negatives), defaults to 115200 on empty input, and
re-prompts (moves to the next input line) on non-numeric input rather than
terminating. -/
theorem select_baudrate_integer_or_reprompt (l : String) (ls : List String) :
    (l = "" → select_baudrate (l :: ls) = some 115200) ∧
    (∀ n : Int, l ≠ "" → pyIntOfString? l = some n → select_baudrate (l :: ls) = some n) ∧
    (l ≠ "" → pyIntOfString? l = none → select_baudrate (l :: ls) = select_baudrate ls) := by
  refine ⟨?_, ?_, ?_⟩
  · intro h; simp [select_baudrate, h, DEFAULT_BAUDRATE]
  · intro n hne hp; simp [select_baudrate, hne, hp]
  · intro hne hp; simp [select_baudrate, hne, hp]

/-- Witness for amended C5: empty input defaults, `"abc"` re-prompts, `"300"`
is accepted. -/
theorem select_baudrate_integer_or_reprompt_witness :
    select_baudrate [""] = some 115200 ∧
    select_baudrate ["abc", "9600"] = select_baudrate ["9600"] ∧
    select_baudrate ["300"] = some 300 :=
  ⟨(select_baudrate_integer_or_reprompt "" []).1 rfl,
   (select_baudrate_integer_or_reprompt "abc" ["9600"]).2.2 (by decide) (by decide),
   (select_baudrate_integer_or_reprompt "300" []).2.1 300 (by decide) (by decide)⟩

/-- C6: keystroke sequences that agree after uppercasing (i.e. differ only in
letter case) drive the session input handler identically — same transmitted
bytes, same buffer, same exception — since every event is uppercased before
any check. -/
theorem case_insensitive_transmission (wf : Bool) (ks ks' : List (List Nat)) (st : MonState)
    (h : ks.map (List.map byteUpper) = ks'.map (List.map byteUpper)) :
    process_keys wf st ks = process_keys wf st ks' :=
  keys_congr_upper wf ks ks' st h

/-- Witness for C6: `a`, `B`, Enter and `A`, `b`, Enter behave identically and
transmit the byte 0xAB. -/
theorem case_insensitive_transmission_witness :
    ([[97], [66], [13]] : List (List Nat)).map (List.map byteUpper) =
      ([[65], [98], [13]] : List (List Nat)).map (List.map byteUpper) ∧
    process_keys false initMonState [[97], [66], [13]] =
      process_keys false initMonState [[65], [98], [13]] ∧
    (process_keys false initMonState [[97], [66], [13]]).written = [171] :=
  ⟨by decide, case_insensitive_transmission false _ _ initMonState (by decide), by decide⟩

/-- C7: processing any sequence of keyboard events preserves the invariant
that the pending buffer holds only the 16 valid hex digits, and its length
(a natural number) is never negative. -/
theorem pending_buffer_hex_invariant (wf : Bool) (keys : List (List Nat)) (st : MonState)
    (h : bufferValid st.input_buffer = true) :
    bufferValid (process_keys wf st keys).st.input_buffer = true ∧
    0 ≤ (process_keys wf st keys).st.input_buffer.length :=
  ⟨keys_valid wf keys st h, Nat.zero_le _⟩

/-- Witness for C7: a mixed event sequence (hex digit, Enter, backspace, an
invalid byte) keeps the buffer hex-only. -/
theorem pending_buffer_hex_invariant_witness :
    bufferValid initMonState.input_buffer = true ∧
    bufferValid (process_keys false initMonState
      [[97], [13], [127], [255]]).st.input_buffer = true :=
  ⟨by decide,
   (pending_buffer_hex_invariant false [[97], [13], [127], [255]] initMonState (by decide)).1⟩

/-- C8: after any N session-loop ticks the received-byte counter equals its
initial value plus the total number of bytes actually read from the serial
device across those ticks, and it never decreases. -/
theorem rx_counter_sums_reads (wf : Bool) (st : MonState) (ticks : List TickIn) :
    (run_ticks wf st ticks).st.total_bytes_rx =
      st.total_bytes_rx + (run_ticks wf st ticks).readCount ∧
    st.total_bytes_rx ≤ (run_ticks wf st ticks).st.total_bytes_rx :=
  ⟨(run_rx_sum wf ticks st).1, (run_rx_sum wf ticks st).2.1⟩

/-- C9: backspace (DEL 0x7f, and equally 0x08) removes exactly the last buffer
character, transmits nothing and raises nothing; on an empty buffer it is a
complete no-op; and as many backspaces as the buffer length empty it. -/
theorem backspace_behavior (wf : Bool) (st : MonState) :
    (process_input_key wf st [127]).st.input_buffer = st.input_buffer.dropLast ∧
    (process_input_key wf st [8]).st.input_buffer = st.input_buffer.dropLast ∧
    (process_input_key wf st [127]).written = [] ∧
    (process_input_key wf st [127]).exc = none ∧
    (st.input_buffer = [] → process_input_key wf st [127] = ⟨st, [], none⟩) ∧
    (process_keys wf st (List.replicate st.input_buffer.length [127])).st.input_buffer
      = [] := by
  obtain ⟨p, bd, pa, ib, rx, tx⟩ := st
  refine ⟨?_, ?_, ?_, ?_, ?_, ?_⟩
  · rw [step_backspace]
  · rw [step_backspace8]
  · rw [step_backspace]
  · rw [step_backspace]
  · intro h
    dsimp only at h
    subst h
    rw [step_backspace]
    simp
  · exact backspace_drain wf _ _ rfl

/-- Witness for C9: backspace on an empty buffer is a no-op, and two
backspaces empty the two-digit buffer `"41"`. -/
theorem backspace_behavior_witness :
    process_input_key false initMonState [127] = ⟨initMonState, [], none⟩ ∧
    (process_keys false st41
      (List.replicate st41.input_buffer.length [127])).st.input_buffer = [] :=
  ⟨(backspace_behavior false initMonState).2.2.2.2.1 rfl,
   (backspace_behavior false st41).2.2.2.2.2⟩

/-- C10: if `serial.write` raises during an even-length submit, the state —
in particular the pending buffer — is left exactly as it was (the clear
happens only after the write returns), and the exception propagates. -/
theorem write_failure_preserves_buffer (st : MonState)
    (hval : bufferValid st.input_buffer = true)
    (hne : st.input_buffer ≠ [])
    (heven : st.input_buffer.length % 2 = 0) :
    (process_input_key true st [13]).st = st ∧
    (process_input_key true st [13]).written = [] ∧
    (process_input_key true st [13]).exc = some PyExc.ioError := by
  have hlen : st.input_buffer.length ≠ 0 :=
    fun h0 => hne (List.eq_nil_of_length_eq_zero h0)
  have hall : ∀ b ∈ st.input_buffer, isHexDigitByte b = true := by
    simpa [bufferValid, List.all_eq_true] using hval
  obtain ⟨bs, hbs⟩ := fromhex?_isSome st.input_buffer hall heven
  rw [step_enter_write_fails st bs hlen heven hbs]
  exact ⟨rfl, rfl, rfl⟩

/-- Witness for C10: a failing write of the buffer `"41"` leaves the state
unchanged with the exception propagating. -/
theorem write_failure_preserves_buffer_witness :
    bufferValid st41.input_buffer = true ∧ st41.input_buffer ≠ [] ∧
    st41.input_buffer.length % 2 = 0 ∧
    (process_input_key true st41 [13]).st = st41 ∧
    (process_input_key true st41 [13]).exc = some PyExc.ioError :=
  ⟨by decide, by decide, by decide,
   (write_failure_preserves_buffer st41 (by decide) (by decide) (by decide)).1,
   (write_failure_preserves_buffer st41 (by decide) (by decide) (by decide)).2.2⟩

end SerialMon
